import Mathlib

/-!
Shallow embedding of the blob credit and subscription engine from
`fendermint/actors/blobs/src/state.rs` (shared data types from
`fendermint/actors/blobs/shared/src/state.rs`).

Rust `HashMap`/`BTreeMap` fields are embedded as association lists whose
operations act on the first matching key (each map built by the engine
has unique keys); `BigInt` is embedded as `Int`, `ChainEpoch` (i64) as
`Int`, `u64` values as `Nat`, and every Rust `as u64` cast is made
explicit with `asU64`.  Every entry point is embedded as a function
`State → args → State × Except String ret`: the returned state is the
value of `self` at the point the Rust function returns, so an early
`return Err` yields the untouched input state exactly as in the source.
-/

namespace BlobsActor

/-- Robust actor address, embedded as an abstract identifier. -/
abbrev Address := Nat

/-- Blob blake3 hash, embedded as an abstract identifier. -/
abbrev BlobHash := Nat

/-- Iroh node public key, embedded as an abstract identifier. -/
abbrev PublicKey := Nat

/-- `ChainEpoch` is a signed 64-bit integer in the source; embedded as `Int`. -/
abbrev ChainEpoch := Int

/-- Lookup of the first binding of key `k`, as Rust `HashMap::get`. -/
def lookupA {κ α : Type} [DecidableEq κ] : List (κ × α) → κ → Option α
  | [], _ => none
  | (k', v) :: t, k => if k' = k then some v else lookupA t k

/-- Update the first binding of key `k` by `f`, as a write through Rust
`HashMap::get_mut`; the list is unchanged when `k` is absent. -/
def updateA {κ α : Type} [DecidableEq κ] : List (κ × α) → κ → (α → α) → List (κ × α)
  | [], _, _ => []
  | (k', v) :: t, k, f => if k' = k then (k', f v) :: t else (k', v) :: updateA t k f

/-- Rust `HashMap::insert`: replace the existing binding or add a new one. -/
def insertA {κ α : Type} [DecidableEq κ] (l : List (κ × α)) (k : κ) (v : α) :
    List (κ × α) :=
  match lookupA l k with
  | some _ => updateA l k (fun _ => v)
  | none => (k, v) :: l

/-- Rust `HashMap::remove`: drop the first binding of key `k`. -/
def eraseA {κ α : Type} [DecidableEq κ] : List (κ × α) → κ → List (κ × α)
  | [], _ => []
  | (k', v) :: t, k => if k' = k then t else (k', v) :: eraseA t k

/-- Rust `HashSet::insert`: add `x` when it is not already present. -/
def insertS {α : Type} [DecidableEq α] (l : List α) (x : α) : List α :=
  if x ∈ l then l else x :: l

/-- Rust `as u64` on an `i64` value: reduce modulo `2 ^ 64` (wrapping cast). -/
def asU64 (x : Int) : Int := x.emod (2 ^ 64)

/-- The status of a blob.  The payload of `added` is the epoch recorded by
the blobs actor (`BlobStatus::Added(ChainEpoch)` as matched in
`fendermint/actors/blobs/src/state.rs`); `pending`, `resolved` and
`failed` are the remaining variants declared by
`fendermint/actors/blobs/shared/src/state.rs`. -/
inductive BlobStatus : Type
  | added (epoch : ChainEpoch)
  | pending
  | resolved
  | failed
deriving DecidableEq, Repr

/-- The stored representation of a credit account. -/
structure Account : Type where
  capacity_used : Int
  credit_free : Int
  credit_committed : Int
  last_debit_epoch : ChainEpoch
deriving DecidableEq, Repr

/-- A subscription of one account to one blob. -/
structure Subscription : Type where
  expiry : ChainEpoch
  source : PublicKey
deriving DecidableEq, Repr

/-- The stored representation of a blob. -/
structure Blob : Type where
  size : Nat
  subs : List (Address × Subscription)
  status : BlobStatus
deriving DecidableEq, Repr

/-- The state represents all accounts and stored blobs. -/
structure State : Type where
  capacity_free : Int
  capacity_used : Int
  credit_sold : Int
  credit_committed : Int
  credit_debited : Int
  credit_debit_rate : Nat
  accounts : List (Address × Account)
  blobs : List (BlobHash × Blob)
  expiries : List (ChainEpoch × List (Address × BlobHash))
  pending : List (BlobHash × List (Address × PublicKey))
deriving DecidableEq, Repr

/-- `State::new(capacity, credit_debit_rate)`. -/
def State.new (capacity : Nat) (credit_debit_rate : Nat) : State :=
  { capacity_free := (capacity : Int)
    capacity_used := 0
    credit_sold := 0
    credit_committed := 0
    credit_debited := 0
    credit_debit_rate := credit_debit_rate
    accounts := []
    blobs := []
    expiries := []
    pending := [] }

/-- Minimum blob TTL (`MIN_TTL`, one hour of epochs). -/
def MIN_TTL : ChainEpoch := 3600

/-- `State::buy_credit(address, amount, current_epoch)`; `amount_atto` is
`amount.atto()` of the `TokenAmount` argument. -/
def buy_credit (s : State) (address : Address) (amount_atto : Int)
    (current_epoch : ChainEpoch) : State × Except String Account :=
  let credits : Int := (s.credit_debit_rate : Int) * amount_atto
  if s.capacity_used = s.capacity_free then
    (s, .error "credits not available (subnet has reach capacity)")
  else
    let s₁ := { s with credit_sold := s.credit_sold + credits }
    match lookupA s₁.accounts address with
    | some account =>
        let account₁ := { account with credit_free := account.credit_free + credits }
        ({ s₁ with accounts := updateA s₁.accounts address (fun _ => account₁) },
         .ok account₁)
    | none =>
        let account₁ : Account :=
          { capacity_used := 0
            credit_free := credits
            credit_committed := 0
            last_debit_epoch := current_epoch }
        ({ s₁ with accounts := insertA s₁.accounts address account₁ }, .ok account₁)

/-- `update_expiry_index(expiries, subscriber, hash, add, remove)`. -/
def update_expiry_index (expiries : List (ChainEpoch × List (Address × BlobHash)))
    (subscriber : Address) (hash : BlobHash) (add : Option ChainEpoch)
    (remove : Option ChainEpoch) : List (ChainEpoch × List (Address × BlobHash)) :=
  let expiries₁ :=
    match add with
    | some a =>
        match lookupA expiries a with
        | some _ => updateA expiries a (fun subs => insertA subs subscriber hash)
        | none => insertA expiries a [(subscriber, hash)]
    | none => expiries
  match remove with
  | some r =>
      match lookupA expiries₁ r with
      | some subs =>
          let subs₁ := eraseA subs subscriber
          if subs₁.isEmpty then eraseA expiries₁ r
          else updateA expiries₁ r (fun _ => subs₁)
      | none => expiries₁
  | none => expiries₁

/-- `self.pending.entry(hash).and_modify(insert (sender, source)).or_insert(...)`
from the existing-blob branch of `add_blob`. -/
def pendingUpsert (pending : List (BlobHash × List (Address × PublicKey)))
    (hash : BlobHash) (sender : Address) (source : PublicKey) :
    List (BlobHash × List (Address × PublicKey)) :=
  match lookupA pending hash with
  | some _ => updateA pending hash (fun sources => insertS sources (sender, source))
  | none => insertA pending hash [(sender, source)]

/-- `State::add_blob(sender, current_epoch, hash, size, ttl, source)`.  The
branch preparation returns the state with the blob registry, expiry index and
pending set updated, together with `(credit_required, new_capacity,
new_account_capacity)`; the common tail then debits the account for existing
usage and moves free credit to committed credit, exactly as the source. -/
def add_blob (s : State) (sender : Address) (current_epoch : ChainEpoch)
    (hash : BlobHash) (size : Nat) (ttl : ChainEpoch) (source : PublicKey) :
    State × Except String Account :=
  if ttl < MIN_TTL then (s, .error "minimum blob TTL is 3600")
  else
    let expiry := current_epoch + ttl
    match lookupA s.accounts sender with
    | none => (s, .error "account not found")
    | some account =>
      let sizeI : Int := (size : Int)
      let prep : Except String (State × Int × Int × Int) :=
        match lookupA s.blobs hash with
        | some blob =>
          let step : Except String (State × Int) :=
            match lookupA blob.subs sender with
            | some sub =>
                -- Required credit can be negative if sender is reducing expiry;
                -- the source nevertheless computes `(expiry - sub.expiry) as u64`.
                let credit_required := asU64 (expiry - sub.expiry) * sizeI
                if account.credit_free < credit_required then
                  .error "insufficient credit"
                else
                  let expiries₁ :=
                    if expiry ≠ sub.expiry then
                      update_expiry_index s.expiries sender hash (some expiry)
                        (some sub.expiry)
                    else s.expiries
                  let blob₁ :=
                    { blob with
                        subs := updateA blob.subs sender
                          (fun sb => { sb with expiry := expiry, source := source }) }
                  .ok ({ s with
                          blobs := updateA s.blobs hash (fun _ => blob₁)
                          expiries := expiries₁ },
                       credit_required)
            | none =>
                let credit_required := asU64 ttl * sizeI
                if account.credit_free < credit_required then
                  .error "insufficient credit"
                else
                  let blob₁ :=
                    { blob with
                        subs := insertA blob.subs sender
                          { expiry := expiry, source := source } }
                  let expiries₁ :=
                    update_expiry_index s.expiries sender hash (some expiry) none
                  .ok ({ s with
                          blobs := updateA s.blobs hash (fun _ => blob₁)
                          expiries := expiries₁ },
                       credit_required)
          match step with
          | .error e => .error e
          | .ok (s₁, credit_required) =>
            -- `if !matches!(blob.status, BlobStatus::Failed)`: reset the status
            -- with the current epoch and add/update the pending entry.
            let s₂ :=
              if blob.status = .failed then s₁
              else
                { s₁ with
                    blobs := updateA s₁.blobs hash
                      (fun b => { b with status := .added current_epoch })
                    pending := pendingUpsert s₁.pending hash sender source }
            let new_account_capacity :=
              if (lookupA blob.subs sender).isSome then 0 else sizeI
            .ok (s₂, credit_required, 0, new_account_capacity)
        | none =>
          let credit_required := asU64 ttl * sizeI
          if account.credit_free < credit_required then
            .error "insufficient credit"
          else
            let blob₁ : Blob :=
              { size := size
                subs := [(sender, { expiry := expiry, source := source })]
                status := .added current_epoch }
            let s₁ :=
              { s with
                  blobs := insertA s.blobs hash blob₁
                  expiries := update_expiry_index s.expiries sender hash (some expiry) none
                  pending := insertA s.pending hash [(sender, source)] }
            .ok (s₁, credit_required, sizeI, sizeI)
      match prep with
      | .error e => (s, .error e)
      | .ok (s₁, credit_required, new_capacity, new_account_capacity) =>
        -- Debit for existing usage
        let debit := asU64 (current_epoch - account.last_debit_epoch) * account.capacity_used
        -- Account for new size and move free credit to committed credit
        let account₁ : Account :=
          { capacity_used := account.capacity_used + new_account_capacity
            credit_free := account.credit_free - credit_required
            credit_committed := account.credit_committed - debit + credit_required
            last_debit_epoch := current_epoch }
        ({ s₁ with
            credit_debited := s₁.credit_debited + debit
            credit_committed := s₁.credit_committed - debit + credit_required
            capacity_used := s₁.capacity_used + new_capacity
            accounts := updateA s₁.accounts sender (fun _ => account₁) },
         .ok account₁)

/-- `State::finalize_blob(from, hash, status)` (`frm` stands for the source's
`from` argument, a Lean keyword). -/
def finalize_blob (s : State) (frm : Address) (hash : BlobHash)
    (status : BlobStatus) : State × Except String Unit :=
  match status with
  | .added _ => (s, .error "finalized status of blob must be resolved or failed")
  | _ =>
    match lookupA s.accounts frm with
    | none => (s, .error "account not found")
    | some account =>
      match lookupA s.blobs hash with
      | none =>
          -- The blob may have been deleted before it was finalized.
          (s, .ok ())
      | some blob =>
        match blob.status with
        | .added added_epoch =>
          match lookupA blob.subs frm with
          | none => (s, .error "finalizing address is not subscribed to blob")
          | some sub =>
            -- Update blob status
            let blob₁ := { blob with status := status }
            if status = .failed then
              let sizeI : Int := (blob.size : Int)
              -- Refund any spent credits in the event the last debit is later
              -- than the added epoch (re-mint spent credit).
              let refund : Int :=
                if added_epoch < account.last_debit_epoch then
                  asU64 (account.last_debit_epoch - added_epoch) * sizeI
                else 0
              -- Reclaim committed credit when the expiry is still ahead of the
              -- last debit epoch.
              let credit_reclaimed : Int :=
                if account.last_debit_epoch < sub.expiry then
                  (sub.expiry - account.last_debit_epoch) * sizeI
                else 0
              let account₁ : Account :=
                { capacity_used := account.capacity_used - sizeI
                  credit_free := account.credit_free + refund + credit_reclaimed
                  credit_committed := account.credit_committed - credit_reclaimed
                  last_debit_epoch := account.last_debit_epoch }
              ({ s with
                  capacity_used := s.capacity_used - sizeI
                  credit_debited := s.credit_debited - refund
                  credit_committed := s.credit_committed - credit_reclaimed
                  accounts := updateA s.accounts frm (fun _ => account₁)
                  blobs := updateA s.blobs hash (fun _ => blob₁)
                  pending := eraseA s.pending hash },
               .ok ())
            else
              ({ s with
                  blobs := updateA s.blobs hash (fun _ => blob₁)
                  pending := eraseA s.pending hash },
               .ok ())
        | _ =>
            -- Blob is already finalized (resolved/failed)
            (s, .ok ())

/-- `State::delete_blob(sender, current_epoch, hash)`. -/
def delete_blob (s : State) (sender : Address) (current_epoch : ChainEpoch)
    (hash : BlobHash) : State × Except String (Account × Bool) :=
  match lookupA s.accounts sender with
  | none => (s, .error "account not found")
  | some account =>
    match lookupA s.blobs hash with
    | none => (s, .error "blob not found")
    | some blob =>
      match lookupA blob.subs sender with
      | none => (s, .error "sender is not subscribed to blob")
      | some sub =>
        let debit_epoch := min sub.expiry current_epoch
        -- Debit for existing usage (only when the debit epoch is past the
        -- last debit).
        let debit : Int :=
          if account.last_debit_epoch < debit_epoch then
            asU64 (debit_epoch - account.last_debit_epoch) * account.capacity_used
          else 0
        let last_debit_epoch₁ :=
          if account.last_debit_epoch < debit_epoch then debit_epoch
          else account.last_debit_epoch
        let sizeI : Int := (blob.size : Int)
        -- Account for reclaimed size; note the source tests
        -- `blob.subs.is_empty()` before removing the sender's subscription.
        let reclaim_capacity : Bool := blob.status ≠ .failed
        let global_capacity_delta : Int :=
          if reclaim_capacity ∧ blob.subs.isEmpty then sizeI else 0
        let account_capacity_delta : Int := if reclaim_capacity then sizeI else 0
        let credit_reclaimed : Int :=
          if reclaim_capacity ∧ debit_epoch = current_epoch then
            (sub.expiry - debit_epoch) * sizeI
          else 0
        let account₁ : Account :=
          { capacity_used := account.capacity_used - account_capacity_delta
            credit_free := account.credit_free + credit_reclaimed
            credit_committed := account.credit_committed - debit - credit_reclaimed
            last_debit_epoch := last_debit_epoch₁ }
        -- Update expiry index, delete the subscription, then delete or update
        -- the blob.
        let expiries₁ := update_expiry_index s.expiries sender hash none (some sub.expiry)
        let subs₁ := eraseA blob.subs sender
        let deleted := subs₁.isEmpty
        let blobs₁ :=
          if deleted then eraseA s.blobs hash
          else updateA s.blobs hash (fun _ => { blob with subs := subs₁ })
        let pending₁ := if deleted then eraseA s.pending hash else s.pending
        ({ s with
            capacity_used := s.capacity_used - global_capacity_delta
            credit_debited := s.credit_debited + debit
            credit_committed := s.credit_committed - debit - credit_reclaimed
            accounts := updateA s.accounts sender (fun _ => account₁)
            blobs := blobs₁
            expiries := expiries₁
            pending := pending₁ },
         .ok (account₁, deleted))

/-- Insert an expiry entry into a list sorted by ascending epoch; used to
replay the `BTreeMap` range scan of `debit_accounts` in key order. -/
def insertSorted (p : ChainEpoch × List (Address × BlobHash)) :
    List (ChainEpoch × List (Address × BlobHash)) →
    List (ChainEpoch × List (Address × BlobHash))
  | [] => [p]
  | q :: t => if p.1 ≤ q.1 then p :: q :: t else q :: insertSorted p t

/-- Sort expiry entries by ascending epoch (the `BTreeMap` iteration order). -/
def sortByEpoch : List (ChainEpoch × List (Address × BlobHash)) →
    List (ChainEpoch × List (Address × BlobHash))
  | [] => []
  | p :: t => insertSorted p (sortByEpoch t)

/-- The expired-subscription reaping loop of `debit_accounts`: delete every
collected `(subscriber, hash)` pair, accumulating the hashes of deleted blobs;
an error from `delete_blob` aborts the loop as the source's `?` does. -/
def reapExpiries (current_epoch : ChainEpoch) :
    List (Address × BlobHash) → State → List BlobHash →
    State × Except String (List BlobHash)
  | [], s, acc => (s, .ok acc)
  | (subscriber, hash) :: rest, s, acc =>
    match delete_blob s subscriber current_epoch hash with
    | (s₁, .ok (_, deleted)) =>
        reapExpiries current_epoch rest s₁ (if deleted then insertS acc hash else acc)
    | (s₁, .error e) => (s₁, .error e)

/-- The per-account debit loop of `debit_accounts`: returns the rewritten
account entries and the total debit applied to the global counters. -/
def debitLoop (current_epoch : ChainEpoch) :
    List (Address × Account) → List (Address × Account) × Int
  | [] => ([], 0)
  | (address, account) :: rest =>
    let debit := asU64 (current_epoch - account.last_debit_epoch) * account.capacity_used
    let account₁ :=
      { account with
          credit_committed := account.credit_committed - debit
          last_debit_epoch := current_epoch }
    let (rest₁, total) := debitLoop current_epoch rest
    ((address, account₁) :: rest₁, debit + total)

/-- `State::debit_accounts(current_epoch)`. -/
def debit_accounts (s : State) (current_epoch : ChainEpoch) :
    State × Except String (List BlobHash) :=
  let expired :=
    ((sortByEpoch (s.expiries.filter (fun p => p.1 ≤ current_epoch))).map
      (fun p => p.2)).flatten
  match reapExpiries current_epoch expired s [] with
  | (s₁, .error e) => (s₁, .error e)
  | (s₁, .ok deleted) =>
    let (accounts₁, total) := debitLoop current_epoch s₁.accounts
    ({ s₁ with
        credit_debited := s₁.credit_debited + total
        credit_committed := s₁.credit_committed - total
        accounts := accounts₁ },
     .ok deleted)

/-- Sum of `credit_committed` over all account entries. -/
def sumCC (l : List (Address × Account)) : Int :=
  (l.map (fun p => p.2.credit_committed)).sum

/-- Invariant: the global committed credit equals the sum of the per-account
committed credit. -/
def cc_invariant (s : State) : Prop := s.credit_committed = sumCC s.accounts

/-- Success test on the result of an entry point. -/
def isOk {ε α : Type} : Except ε α → Bool
  | .ok _ => true
  | .error _ => false

/-- Concrete state: one blob of size 100 with two subscribers (addresses 0
and 1); used to exercise `finalize_blob` with a co-subscriber present. -/
def twoSubsState : State :=
  { capacity_free := 1000000
    capacity_used := 100
    credit_sold := 1600
    credit_committed := 1600
    credit_debited := 0
    credit_debit_rate := 1
    accounts :=
      [(0, { capacity_used := 100, credit_free := 0, credit_committed := 500,
             last_debit_epoch := 0 }),
       (1, { capacity_used := 100, credit_free := 0, credit_committed := 1100,
             last_debit_epoch := 1 })]
    blobs :=
      [(0, { size := 100
             subs := [(0, { expiry := 5, source := 0 }),
                      (1, { expiry := 11, source := 1 })]
             status := .added 0 })]
    expiries := [(5, [(0, 0)]), (11, [(1, 0)])]
    pending := [(0, [(0, 0), (1, 1)])] }

/-- Concrete state: one blob of size 100 with a single subscriber (address 0)
expiring at epoch 5; used to exercise `delete_blob` on the last subscriber. -/
def oneSubState : State :=
  { capacity_free := 1000000
    capacity_used := 100
    credit_sold := 500
    credit_committed := 500
    credit_debited := 0
    credit_debit_rate := 1
    accounts :=
      [(0, { capacity_used := 100, credit_free := 0, credit_committed := 500,
             last_debit_epoch := 0 })]
    blobs :=
      [(0, { size := 100
             subs := [(0, { expiry := 5, source := 0 })]
             status := .added 0 })]
    expiries := [(5, [(0, 0)])]
    pending := [(0, [(0, 0)])] }

/-- Concrete state: an account (address 1) with free credit and an existing
blob (hash 5) subscribed only by address 0; used to exercise `add_blob` by a
new subscriber. -/
def coSubscribeState : State :=
  { capacity_free := 1000000
    capacity_used := 100
    credit_sold := 400500
    credit_committed := 500
    credit_debited := 0
    credit_debit_rate := 1
    accounts :=
      [(1, { capacity_used := 0, credit_free := 400000, credit_committed := 500,
             last_debit_epoch := 1 })]
    blobs :=
      [(5, { size := 100
             subs := [(0, { expiry := 5, source := 0 })]
             status := .added 0 })]
    expiries := []
    pending := [] }

/-! ### Association-list lemmas -/

theorem lookupA_updateA_self {κ α : Type} [DecidableEq κ] (l : List (κ × α)) (k : κ)
    (f : α → α) : lookupA (updateA l k f) k = (lookupA l k).map f := by
  induction l with
  | nil => rfl
  | cons p t ih =>
    obtain ⟨k', v⟩ := p
    by_cases h : k' = k
    · simp [lookupA, updateA, h]
    · simp [lookupA, updateA, h, ih]

theorem lookupA_isSome_ne_nil {κ α : Type} [DecidableEq κ] {l : List (κ × α)} {k : κ}
    {v : α} (h : lookupA l k = some v) : l.isEmpty = false := by
  cases l with
  | nil => simp [lookupA] at h
  | cons p t => simp [List.isEmpty]

theorem sumCC_nil : sumCC [] = 0 := rfl

theorem sumCC_cons (p : Address × Account) (t : List (Address × Account)) :
    sumCC (p :: t) = p.2.credit_committed + sumCC t := by
  simp [sumCC]

theorem updateA_of_lookupA_none {κ α : Type} [DecidableEq κ] {l : List (κ × α)} {k : κ}
    (f : α → α) (h : lookupA l k = none) : updateA l k f = l := by
  induction l with
  | nil => rfl
  | cons p t ih =>
    obtain ⟨k', v⟩ := p
    by_cases hk : k' = k
    · simp [lookupA, hk] at h
    · simp [lookupA, hk] at h
      simp [updateA, hk, ih h]

theorem sumCC_updateA_some {l : List (Address × Account)} {k : Address} {a : Account}
    (f : Account → Account) (h : lookupA l k = some a) :
    sumCC (updateA l k f) = sumCC l + (f a).credit_committed - a.credit_committed := by
  induction l with
  | nil => simp [lookupA] at h
  | cons p t ih =>
    obtain ⟨k', v⟩ := p
    by_cases hk : k' = k
    · simp [lookupA, hk] at h
      subst h
      simp [updateA, hk, sumCC_cons]
      omega
    · simp [lookupA, hk] at h
      simp [updateA, hk, sumCC_cons, ih h]
      omega

theorem sumCC_insertA_none {l : List (Address × Account)} {k : Address}
    (v : Account) (h : lookupA l k = none) :
    sumCC (insertA l k v) = sumCC l + v.credit_committed := by
  simp [insertA, h, sumCC_cons]
  omega

theorem buy_credit_cc (s : State) (a : Address) (amt : Int) (e : ChainEpoch)
    (hinv : cc_invariant s) : cc_invariant (buy_credit s a amt e).1 := by
  unfold buy_credit
  split
  · exact hinv
  · cases h : lookupA s.accounts a with
    | some account =>
        simp only [cc_invariant, h] at hinv ⊢
        simp only [sumCC_updateA_some _ h]
        omega
    | none =>
        simp only [cc_invariant, h] at hinv ⊢
        simp only [sumCC_insertA_none _ h]
        simp [hinv]

theorem delete_blob_cc (s : State) (sender : Address) (e : ChainEpoch)
    (hash : BlobHash) (hinv : cc_invariant s) :
    cc_invariant (delete_blob s sender e hash).1 := by
  unfold delete_blob
  cases hacc : lookupA s.accounts sender with
  | none => exact hinv
  | some account =>
    dsimp only
    cases hblob : lookupA s.blobs hash with
    | none => exact hinv
    | some blob =>
      dsimp only
      cases hsub : lookupA blob.subs sender with
      | none => exact hinv
      | some sub =>
        simp only [cc_invariant] at hinv ⊢
        simp only [sumCC_updateA_some _ hacc]
        simp only [hinv]
        ring

theorem finalize_blob_cc (s : State) (frm : Address) (hash : BlobHash)
    (status : BlobStatus) (hinv : cc_invariant s) :
    cc_invariant (finalize_blob s frm hash status).1 := by
  unfold finalize_blob
  cases status with
  | added e => exact hinv
  | pending =>
    cases hacc : lookupA s.accounts frm with
    | none => exact hinv
    | some account =>
      dsimp only
      cases hblob : lookupA s.blobs hash with
      | none => exact hinv
      | some blob =>
        dsimp only
        cases hst : blob.status with
        | added ae =>
          cases hsub : lookupA blob.subs frm with
          | none => exact hinv
          | some sub => simpa [cc_invariant] using hinv
        | pending => exact hinv
        | resolved => exact hinv
        | failed => exact hinv
  | resolved =>
    cases hacc : lookupA s.accounts frm with
    | none => exact hinv
    | some account =>
      dsimp only
      cases hblob : lookupA s.blobs hash with
      | none => exact hinv
      | some blob =>
        dsimp only
        cases hst : blob.status with
        | added ae =>
          cases hsub : lookupA blob.subs frm with
          | none => exact hinv
          | some sub => simpa [cc_invariant] using hinv
        | pending => exact hinv
        | resolved => exact hinv
        | failed => exact hinv
  | failed =>
    cases hacc : lookupA s.accounts frm with
    | none => exact hinv
    | some account =>
      dsimp only
      cases hblob : lookupA s.blobs hash with
      | none => exact hinv
      | some blob =>
        dsimp only
        cases hst : blob.status with
        | added ae =>
          cases hsub : lookupA blob.subs frm with
          | none => exact hinv
          | some sub =>
            simp only [cc_invariant] at hinv ⊢
            simp only [reduceIte]
            simp only [sumCC_updateA_some _ hacc]
            simp only [hinv]
            ring
        | pending => exact hinv
        | resolved => exact hinv
        | failed => exact hinv

theorem add_blob_cc (s : State) (sender : Address) (e : ChainEpoch) (hash : BlobHash)
    (size : Nat) (ttl : ChainEpoch) (source : PublicKey) (hinv : cc_invariant s) :
    cc_invariant (add_blob s sender e hash size ttl source).1 := by
  unfold add_blob
  split
  · exact hinv
  · cases hacc : lookupA s.accounts sender with
    | none => exact hinv
    | some account =>
      dsimp only
      cases hblob : lookupA s.blobs hash with
      | some blob =>
        dsimp only
        cases hsub : lookupA blob.subs sender with
        | some sub =>
          dsimp only
          by_cases hcr : account.credit_free < asU64 (e + ttl - sub.expiry) * (size : Int)
          · simp only [if_pos hcr]
            exact hinv
          · simp only [if_neg hcr]
            try dsimp only
            simp only [cc_invariant] at hinv ⊢
            split <;>
              (try dsimp only
               simp only [sumCC_updateA_some _ hacc]; simp only [hinv]; ring)
        | none =>
          dsimp only
          by_cases hcr : account.credit_free < asU64 ttl * (size : Int)
          · simp only [if_pos hcr]
            exact hinv
          · simp only [if_neg hcr]
            try dsimp only
            simp only [cc_invariant] at hinv ⊢
            split <;>
              (try dsimp only
               simp only [sumCC_updateA_some _ hacc]; simp only [hinv]; ring)
      | none =>
        dsimp only
        by_cases hcr : account.credit_free < asU64 ttl * (size : Int)
        · simp only [if_pos hcr]
          exact hinv
        · simp only [if_neg hcr]
          try dsimp only
          simp only [cc_invariant] at hinv ⊢
          simp only [sumCC_updateA_some _ hacc]
          simp only [hinv]
          ring

theorem reapExpiries_cc (e : ChainEpoch) :
    ∀ (entries : List (Address × BlobHash)) (s : State) (acc : List BlobHash),
      cc_invariant s → cc_invariant (reapExpiries e entries s acc).1
  | [], _, _, hinv => hinv
  | (subscriber, hash) :: rest, s, acc, hinv => by
    have hd := delete_blob_cc s subscriber e hash hinv
    unfold reapExpiries
    cases hdel : delete_blob s subscriber e hash with
    | mk s₁ r =>
      rw [hdel] at hd
      cases r with
      | ok v => exact reapExpiries_cc e rest s₁ _ hd
      | error msg => exact hd

theorem debitLoop_sumCC (e : ChainEpoch) :
    ∀ l : List (Address × Account),
      sumCC (debitLoop e l).1 = sumCC l - (debitLoop e l).2
  | [] => by simp [debitLoop, sumCC]
  | (address, account) :: rest => by
    have ih := debitLoop_sumCC e rest
    unfold debitLoop
    cases hres : debitLoop e rest with
    | mk rest₁ total =>
      rw [hres] at ih
      simp only [sumCC_cons] at ih ⊢
      simp only [ih]
      ring

theorem debit_accounts_cc (s : State) (e : ChainEpoch)
    (hinv : cc_invariant s) : cc_invariant (debit_accounts s e).1 := by
  unfold debit_accounts
  dsimp only
  have hreap := reapExpiries_cc e
    (((sortByEpoch (s.expiries.filter (fun p => p.1 ≤ e))).map (fun p => p.2)).flatten)
    s [] hinv
  cases hr : reapExpiries e
      (((sortByEpoch (s.expiries.filter (fun p => p.1 ≤ e))).map (fun p => p.2)).flatten)
      s [] with
  | mk s₁ r =>
    rw [hr] at hreap
    cases r with
    | error msg => exact hreap
    | ok deleted =>
      have hdl := debitLoop_sumCC e s₁.accounts
      cases hloop : debitLoop e s₁.accounts with
      | mk accounts₁ total =>
        rw [hloop] at hdl
        dsimp only at hdl
        simp only [cc_invariant] at hreap ⊢
        rw [hloop]
        dsimp only
        rw [hdl, hreap]

/-- C3: the global `credit_committed` equals the sum of `credit_committed`
over all accounts in every reachable state: every successful transition
(`buy_credit`, `add_blob`, `finalize_blob`, `delete_blob`, `debit_accounts`)
applied to a state satisfying the equality yields a state that still
satisfies it, and the genesis state satisfies it. -/
theorem claim_C3_credit_committed_invariant :
    (∀ (capacity rate : Nat), cc_invariant (State.new capacity rate)) ∧
    (∀ (s : State) (a : Address) (amt : Int) (e : ChainEpoch),
        isOk (buy_credit s a amt e).2 = true →
        cc_invariant s → cc_invariant (buy_credit s a amt e).1) ∧
    (∀ (s : State) (sender : Address) (e : ChainEpoch) (hash : BlobHash)
        (size : Nat) (ttl : ChainEpoch) (source : PublicKey),
        isOk (add_blob s sender e hash size ttl source).2 = true →
        cc_invariant s → cc_invariant (add_blob s sender e hash size ttl source).1) ∧
    (∀ (s : State) (frm : Address) (hash : BlobHash) (status : BlobStatus),
        isOk (finalize_blob s frm hash status).2 = true →
        cc_invariant s → cc_invariant (finalize_blob s frm hash status).1) ∧
    (∀ (s : State) (sender : Address) (e : ChainEpoch) (hash : BlobHash),
        isOk (delete_blob s sender e hash).2 = true →
        cc_invariant s → cc_invariant (delete_blob s sender e hash).1) ∧
    (∀ (s : State) (e : ChainEpoch),
        isOk (debit_accounts s e).2 = true →
        cc_invariant s → cc_invariant (debit_accounts s e).1) :=
  ⟨fun _ _ => rfl,
   fun s a amt e _ h => buy_credit_cc s a amt e h,
   fun s sender e hash size ttl source _ h => add_blob_cc s sender e hash size ttl source h,
   fun s frm hash status _ h => finalize_blob_cc s frm hash status h,
   fun s sender e hash _ h => delete_blob_cc s sender e hash h,
   fun s e _ h => debit_accounts_cc s e h⟩

/-- Witness for C3 at concrete inputs. -/
theorem claim_C3_credit_committed_invariant_witness :
    cc_invariant ((buy_credit (State.new 10 1) 0 5 0).1) ∧
    cc_invariant ((debit_accounts (State.new 10 1) 7).1) :=
  ⟨claim_C3_credit_committed_invariant.2.1 (State.new 10 1) 0 5 0 (by decide) rfl,
   claim_C3_credit_committed_invariant.2.2.2.2.2 (State.new 10 1) 7 (by decide) rfl⟩

theorem buy_credit_atomic (s : State) (a : Address) (amt : Int) (e : ChainEpoch) :
    isOk (buy_credit s a amt e).2 = false → (buy_credit s a amt e).1 = s := by
  unfold buy_credit
  split
  · intro _; rfl
  · cases hl : lookupA s.accounts a with
    | some account => intro h; simp [isOk, hl] at h
    | none => intro h; simp [isOk, hl] at h

theorem add_blob_atomic (s : State) (sender : Address) (e : ChainEpoch)
    (hash : BlobHash) (size : Nat) (ttl : ChainEpoch) (source : PublicKey) :
    isOk (add_blob s sender e hash size ttl source).2 = false →
    (add_blob s sender e hash size ttl source).1 = s := by
  unfold add_blob
  split
  · intro _; rfl
  · cases hacc : lookupA s.accounts sender with
    | none => intro _; rfl
    | some account =>
      dsimp only
      cases hblob : lookupA s.blobs hash with
      | some blob =>
        dsimp only
        cases hsub : lookupA blob.subs sender with
        | some sub =>
          dsimp only
          by_cases hcr : account.credit_free < asU64 (e + ttl - sub.expiry) * (size : Int)
          · simp only [if_pos hcr]
            intro _; trivial
          · simp only [if_neg hcr]
            intro h; simp [isOk] at h
        | none =>
          dsimp only
          by_cases hcr : account.credit_free < asU64 ttl * (size : Int)
          · simp only [if_pos hcr]
            intro _; trivial
          · simp only [if_neg hcr]
            intro h; simp [isOk] at h
      | none =>
        dsimp only
        by_cases hcr : account.credit_free < asU64 ttl * (size : Int)
        · simp only [if_pos hcr]
          intro _; trivial
        · simp only [if_neg hcr]
          intro h; simp [isOk] at h

theorem finalize_blob_atomic (s : State) (frm : Address) (hash : BlobHash)
    (status : BlobStatus) :
    isOk (finalize_blob s frm hash status).2 = false →
    (finalize_blob s frm hash status).1 = s := by
  unfold finalize_blob
  cases status with
  | added e => intro _; rfl
  | pending =>
    cases hacc : lookupA s.accounts frm with
    | none => intro _; rfl
    | some account =>
      dsimp only
      cases hblob : lookupA s.blobs hash with
      | none => intro h; simp [isOk] at h
      | some blob =>
        dsimp only
        cases hst : blob.status with
        | added ae =>
          cases hsub : lookupA blob.subs frm with
          | none => intro _; rfl
          | some sub => intro h; simp [isOk] at h
        | pending => intro h; simp [isOk] at h
        | resolved => intro h; simp [isOk] at h
        | failed => intro h; simp [isOk] at h
  | resolved =>
    cases hacc : lookupA s.accounts frm with
    | none => intro _; rfl
    | some account =>
      dsimp only
      cases hblob : lookupA s.blobs hash with
      | none => intro h; simp [isOk] at h
      | some blob =>
        dsimp only
        cases hst : blob.status with
        | added ae =>
          cases hsub : lookupA blob.subs frm with
          | none => intro _; rfl
          | some sub => intro h; simp [isOk] at h
        | pending => intro h; simp [isOk] at h
        | resolved => intro h; simp [isOk] at h
        | failed => intro h; simp [isOk] at h
  | failed =>
    cases hacc : lookupA s.accounts frm with
    | none => intro _; rfl
    | some account =>
      dsimp only
      cases hblob : lookupA s.blobs hash with
      | none => intro h; simp [isOk] at h
      | some blob =>
        dsimp only
        cases hst : blob.status with
        | added ae =>
          cases hsub : lookupA blob.subs frm with
          | none => intro _; rfl
          | some sub => intro h; simp [isOk] at h
        | pending => intro h; simp [isOk] at h
        | resolved => intro h; simp [isOk] at h
        | failed => intro h; simp [isOk] at h

theorem delete_blob_atomic (s : State) (sender : Address) (e : ChainEpoch)
    (hash : BlobHash) :
    isOk (delete_blob s sender e hash).2 = false →
    (delete_blob s sender e hash).1 = s := by
  unfold delete_blob
  cases hacc : lookupA s.accounts sender with
  | none => intro _; rfl
  | some account =>
    dsimp only
    cases hblob : lookupA s.blobs hash with
    | none => intro _; rfl
    | some blob =>
      dsimp only
      cases hsub : lookupA blob.subs sender with
      | none => intro _; rfl
      | some sub => intro h; simp [isOk] at h

/-- C5: every transition is atomic: whenever `buy_credit`, `add_blob`,
`delete_blob` or `finalize_blob` returns an error, the entire state (all
global counters, accounts, blobs, expiries and pending) equals the state
before the call. -/
theorem claim_C5_transitions_atomic :
    (∀ (s : State) (a : Address) (amt : Int) (e : ChainEpoch),
        isOk (buy_credit s a amt e).2 = false → (buy_credit s a amt e).1 = s) ∧
    (∀ (s : State) (sender : Address) (e : ChainEpoch) (hash : BlobHash)
        (size : Nat) (ttl : ChainEpoch) (source : PublicKey),
        isOk (add_blob s sender e hash size ttl source).2 = false →
        (add_blob s sender e hash size ttl source).1 = s) ∧
    (∀ (s : State) (sender : Address) (e : ChainEpoch) (hash : BlobHash),
        isOk (delete_blob s sender e hash).2 = false →
        (delete_blob s sender e hash).1 = s) ∧
    (∀ (s : State) (frm : Address) (hash : BlobHash) (status : BlobStatus),
        isOk (finalize_blob s frm hash status).2 = false →
        (finalize_blob s frm hash status).1 = s) :=
  ⟨buy_credit_atomic, add_blob_atomic, delete_blob_atomic, finalize_blob_atomic⟩

/-- Witness for C5: concrete failing calls leave the state untouched (a
capacity-full credit purchase, a too-small TTL, and two missing-account
calls). -/
theorem claim_C5_transitions_atomic_witness :
    (buy_credit (State.new 0 1) 0 1 0).1 = State.new 0 1 ∧
    (add_blob (State.new 5 1) 0 0 0 1 100 0).1 = State.new 5 1 ∧
    (delete_blob (State.new 5 1) 0 0 0).1 = State.new 5 1 ∧
    (finalize_blob (State.new 5 1) 0 0 .resolved).1 = State.new 5 1 :=
  ⟨claim_C5_transitions_atomic.1 (State.new 0 1) 0 1 0 (by decide),
   claim_C5_transitions_atomic.2.1 (State.new 5 1) 0 0 0 1 100 0 (by decide),
   claim_C5_transitions_atomic.2.2.1 (State.new 5 1) 0 0 0 (by decide),
   claim_C5_transitions_atomic.2.2.2 (State.new 5 1) 0 0 .resolved (by decide)⟩

/-- C9: `finalize_blob(subscriber, hash, Resolved)` is idempotent: for every
state, applying it twice yields the same final state and the same result as
applying it once. -/
theorem claim_C9_finalize_resolved_idempotent (s : State) (frm : Address)
    (hash : BlobHash) :
    finalize_blob (finalize_blob s frm hash .resolved).1 frm hash .resolved =
      finalize_blob s frm hash .resolved := by
  cases hacc : lookupA s.accounts frm with
  | none => simp [finalize_blob, hacc]
  | some account =>
    cases hblob : lookupA s.blobs hash with
    | none => simp [finalize_blob, hacc, hblob]
    | some blob =>
      cases hst : blob.status with
      | added ae =>
        cases hsub : lookupA blob.subs frm with
        | none => simp [finalize_blob, hacc, hblob, hst, hsub]
        | some sub =>
          simp [finalize_blob, hacc, hblob, hst, hsub, lookupA_updateA_self]
      | pending => simp [finalize_blob, hacc, hblob, hst]
      | resolved => simp [finalize_blob, hacc, hblob, hst]
      | failed => simp [finalize_blob, hacc, hblob, hst]

theorem lookupA_insertA_self {κ α : Type} [DecidableEq κ] (l : List (κ × α)) (k : κ)
    (v : α) : lookupA (insertA l k v) k = some v := by
  unfold insertA
  cases h : lookupA l k with
  | some a => rw [lookupA_updateA_self, h]; rfl
  | none => simp [lookupA]

/-- C10: `finalize_blob` returns an error whenever the finalizing
subscriber's account does not exist, for any status and in particular even
when the target blob is absent, because the account lookup precedes the
blob lookup; the state is left unchanged. -/
theorem claim_C10_finalize_requires_account (s : State) (frm : Address)
    (hash : BlobHash) (status : BlobStatus)
    (h : lookupA s.accounts frm = none) :
    isOk (finalize_blob s frm hash status).2 = false ∧
    (finalize_blob s frm hash status).1 = s := by
  cases status with
  | added e => simp [finalize_blob, isOk]
  | pending => simp [finalize_blob, isOk, h]
  | resolved => simp [finalize_blob, isOk, h]
  | failed => simp [finalize_blob, isOk, h]

/-- Witness for C10: with no account registered, finalizing an absent blob
errors and leaves the state unchanged. -/
theorem claim_C10_finalize_requires_account_witness :
    isOk (finalize_blob (State.new 5 1) 0 0 .resolved).2 = false ∧
    (finalize_blob (State.new 5 1) 0 0 .resolved).1 = State.new 5 1 :=
  claim_C10_finalize_requires_account (State.new 5 1) 0 0 .resolved rfl

/-- C8: `buy_credit(addr, tokens, epoch)` fails exactly when
`capacity_used = capacity_free`; otherwise it mints
`credit_debit_rate * atto(tokens)` credits into the account's
`credit_free`, increases the global `credit_sold` by the same amount, and
creates an absent account with `last_debit_epoch = epoch` and zero
`capacity_used` and `credit_committed`. -/
theorem claim_C8_buy_credit (s : State) (a : Address) (amt : Int) (e : ChainEpoch) :
    (isOk (buy_credit s a amt e).2 = false ↔ s.capacity_used = s.capacity_free) ∧
    (s.capacity_used ≠ s.capacity_free →
      (buy_credit s a amt e).1.credit_sold =
        s.credit_sold + (s.credit_debit_rate : Int) * amt ∧
      (lookupA s.accounts a = none →
        lookupA (buy_credit s a amt e).1.accounts a =
          some { capacity_used := 0, credit_free := (s.credit_debit_rate : Int) * amt,
                 credit_committed := 0, last_debit_epoch := e }) ∧
      (∀ account, lookupA s.accounts a = some account →
        lookupA (buy_credit s a amt e).1.accounts a =
          some { account with credit_free :=
                   account.credit_free + (s.credit_debit_rate : Int) * amt })) := by
  constructor
  · unfold buy_credit
    by_cases hcap : s.capacity_used = s.capacity_free
    · simp [if_pos hcap, isOk, hcap]
    · simp only [if_neg hcap]
      cases hl : lookupA s.accounts a with
      | some account => simp [isOk, hl, hcap]
      | none => simp [isOk, hl, hcap]
  · intro hcap
    unfold buy_credit
    simp only [if_neg hcap]
    refine ⟨?_, ?_, ?_⟩
    · cases hl : lookupA s.accounts a with
      | some account => simp [hl]
      | none => simp [hl]
    · intro hnone
      simp [hnone, lookupA_insertA_self]
    · intro account hsome
      simp [hsome, lookupA_updateA_self]

/-- Witness for C8: buying one atto-token of credit at genesis creates the
account with the minted credit. -/
theorem claim_C8_buy_credit_witness :
    lookupA ((buy_credit (State.new 1000 1) 0 1 0).1).accounts 0 =
      some { capacity_used := 0, credit_free := 1, credit_committed := 0,
             last_debit_epoch := 0 } := by
  have h := claim_C8_buy_credit (State.new 1000 1) 0 1 0
  have h2 := (h.2 (by decide)).2.1 rfl
  simpa [State.new] using h2

/-- C7: `add_blob` by a subscriber with no existing subscription to an
already-registered blob of size `s` and time-to-live `t` moves the full
credit `s * t` (not prorated) from the subscriber's `credit_free` to its
`credit_committed` (and to the global `credit_committed`), increases the
subscriber's `capacity_used` by `s`, and leaves the global `capacity_used`
unchanged.  The hypothesis `last_debit_epoch = epoch` isolates the transfer
from the orthogonal usage debit the call performs first. -/
theorem claim_C7_add_blob_new_subscriber (s : State) (sender : Address)
    (e : ChainEpoch) (hash : BlobHash) (size : Nat) (ttl : ChainEpoch)
    (source : PublicKey) (account : Account) (blob : Blob)
    (hacc : lookupA s.accounts sender = some account)
    (hblob : lookupA s.blobs hash = some blob)
    (hsub : lookupA blob.subs sender = none)
    (httl : MIN_TTL ≤ ttl) (httl2 : ttl < 2 ^ 64)
    (hlde : account.last_debit_epoch = e)
    (hcred : ttl * (size : Int) ≤ account.credit_free) :
    ∃ acct,
      (add_blob s sender e hash size ttl source).2 = .ok acct ∧
      acct.credit_free = account.credit_free - ttl * (size : Int) ∧
      acct.credit_committed = account.credit_committed + ttl * (size : Int) ∧
      acct.capacity_used = account.capacity_used + (size : Int) ∧
      (add_blob s sender e hash size ttl source).1.capacity_used = s.capacity_used ∧
      (add_blob s sender e hash size ttl source).1.credit_committed =
        s.credit_committed + ttl * (size : Int) ∧
      lookupA (add_blob s sender e hash size ttl source).1.accounts sender = some acct := by
  have hA : asU64 ttl = ttl := by
    unfold asU64
    exact Int.emod_eq_of_lt (le_trans (by decide) httl) httl2
  have hD : asU64 (e - account.last_debit_epoch) = 0 := by
    unfold asU64
    rw [hlde, sub_self]
    exact Int.zero_emod _
  have hnl : ¬ ttl < MIN_TTL := not_lt.mpr httl
  have hnc : ¬ account.credit_free < asU64 ttl * (size : Int) := by
    rw [hA]
    exact not_lt.mpr hcred
  unfold add_blob
  simp only [if_neg hnl, hacc]
  try dsimp only
  simp only [hblob]
  try dsimp only
  simp only [hsub]
  try dsimp only
  simp only [if_neg hnc]
  try dsimp only
  split
  case isTrue h => simp at h
  case isFalse h =>
    split <;>
      exact ⟨_, rfl, by simp [hA], by (simp [hA, hD]; try ring), by simp, by simp,
        by (simp [hA, hD]; try ring), by simp [lookupA_updateA_self, hacc]⟩

/-- Witness for C7 at a concrete co-subscription state: address 1 joins the
blob of hash 5 (size 100) for the minimum TTL. -/
theorem claim_C7_add_blob_new_subscriber_witness :
    ∃ acct,
      (add_blob coSubscribeState 1 1 5 100 3600 9).2 = .ok acct ∧
      acct.credit_committed = 500 + 3600 * 100 ∧
      (add_blob coSubscribeState 1 1 5 100 3600 9).1.capacity_used =
        coSubscribeState.capacity_used := by
  obtain ⟨acct, h1, h2, h3, h4, h5, h6, h7⟩ :=
    claim_C7_add_blob_new_subscriber coSubscribeState 1 1 5 100 3600 9
      { capacity_used := 0, credit_free := 400000, credit_committed := 500,
        last_debit_epoch := 1 }
      { size := 100, subs := [(0, { expiry := 5, source := 0 })], status := .added 0 }
      (by decide) (by decide) (by decide) (by decide) (by decide) rfl (by decide)
  refine ⟨acct, h1, ?_, h5⟩
  rw [h3]
  norm_num

/-- C1 as stated is false: finalizing address 0's subscription as `Failed`
succeeds while address 1 still holds a (non-failed) subscription to the same
blob, yet the global `capacity_used` changes, where the claim requires it to
be unchanged. -/
theorem claim_C1_counterexample :
    isOk (finalize_blob twoSubsState 0 0 .failed).2 = true ∧
    ((lookupA (finalize_blob twoSubsState 0 0 .failed).1.blobs 0).map
      (fun b => (lookupA b.subs 1).isSome)) = some true ∧
    (finalize_blob twoSubsState 0 0 .failed).1.capacity_used ≠
      twoSubsState.capacity_used := by
  refine ⟨by decide, by decide, by decide⟩

/-- C1 amended: whenever `finalize_blob(subscriber, hash, Failed)` succeeds on
a blob in `Added` status, the subscriber's `capacity_used` decreases by the
blob's size and the global `capacity_used` also decreases by the blob's size
unconditionally, even when other subscribers still hold subscriptions. -/
theorem claim_C1_finalize_failed_capacity (s : State) (frm : Address)
    (hash : BlobHash) (account : Account) (blob : Blob) (ae : ChainEpoch)
    (sub : Subscription)
    (hacc : lookupA s.accounts frm = some account)
    (hblob : lookupA s.blobs hash = some blob)
    (hst : blob.status = .added ae)
    (hsub : lookupA blob.subs frm = some sub) :
    (finalize_blob s frm hash .failed).2 = .ok () ∧
    (finalize_blob s frm hash .failed).1.capacity_used =
      s.capacity_used - (blob.size : Int) ∧
    (lookupA (finalize_blob s frm hash .failed).1.accounts frm).map
        (fun a => a.capacity_used) =
      some (account.capacity_used - (blob.size : Int)) := by
  unfold finalize_blob
  simp only [hacc]
  try dsimp only
  simp only [hblob]
  try dsimp only
  simp only [hst]
  try dsimp only
  simp only [hsub]
  try dsimp only
  refine ⟨rfl, rfl, ?_⟩
  simp [lookupA_updateA_self, hacc]

/-- Witness for the amended C1 at the two-subscriber state. -/
theorem claim_C1_finalize_failed_capacity_witness :
    (finalize_blob twoSubsState 0 0 .failed).2 = .ok () ∧
    (finalize_blob twoSubsState 0 0 .failed).1.capacity_used =
      twoSubsState.capacity_used - 100 := by
  obtain ⟨h1, h2, h3⟩ :=
    claim_C1_finalize_failed_capacity twoSubsState 0 0
      { capacity_used := 100, credit_free := 0, credit_committed := 500,
        last_debit_epoch := 0 }
      { size := 100
        subs := [(0, { expiry := 5, source := 0 }), (1, { expiry := 11, source := 1 })]
        status := .added 0 }
      0 { expiry := 5, source := 0 } (by decide) (by decide) (by decide) (by decide)
  exact ⟨h1, h2⟩

/-- C2: the global `capacity_used` reclamation in `delete_blob` is dead code:
the `blob.subs.is_empty()` test runs before the sender's subscription is
removed, so `delete_blob` never changes the global `capacity_used` — in
particular deleting the last subscriber of a non-failed blob removes the blob
but leaves the global `capacity_used` unchanged, contradicting the claim and
the spec. -/
theorem claim_C2_delete_blob_capacity_bug :
    (∀ (s : State) (sender : Address) (e : ChainEpoch) (hash : BlobHash),
        (delete_blob s sender e hash).1.capacity_used = s.capacity_used) ∧
    isOk (delete_blob oneSubState 0 5 0).2 = true ∧
    (delete_blob oneSubState 0 5 0).1.blobs = [] ∧
    (delete_blob oneSubState 0 5 0).1.capacity_used = oneSubState.capacity_used := by
  refine ⟨?_, by decide, by decide, by decide⟩
  intro s sender e hash
  unfold delete_blob
  cases hacc : lookupA s.accounts sender with
  | none => rfl
  | some account =>
    dsimp only
    cases hblob : lookupA s.blobs hash with
    | none => rfl
    | some blob =>
      dsimp only
      cases hsub : lookupA blob.subs sender with
      | none => rfl
      | some sub =>
        have hne := lookupA_isSome_ne_nil hsub
        dsimp only
        simp [hne]

/-- C6: `finalize_blob` rejects `Added` (error, state unchanged) but does
not reject `Pending`: finalizing a resolvable blob with status `Pending`
succeeds and mutates the state, although the source's own error message says
the finalized status must be resolved or failed. -/
theorem claim_C6_finalize_pending_accepted :
    (∀ (s : State) (frm : Address) (hash : BlobHash) (e : ChainEpoch),
        isOk (finalize_blob s frm hash (.added e)).2 = false ∧
        (finalize_blob s frm hash (.added e)).1 = s) ∧
    isOk (finalize_blob oneSubState 0 0 .pending).2 = true ∧
    (finalize_blob oneSubState 0 0 .pending).1 ≠ oneSubState := by
  refine ⟨fun s frm hash e => ⟨rfl, rfl⟩, by decide, by decide⟩

end BlobsActor
